import Mathlib

/-!
Verification of the Bill-buddy retail billing application (`src/main.py`)
against its natural-language specification.

The SQLite database is shallowly embedded as a Lean structure holding one
list per table.  SQLite `REAL` values are modelled as `ℚ` (the program's
arithmetic is exact on the rationals it manipulates; no claim depends on
binary floating-point rounding), nullable columns as `Option` types, and
the widget texts of the dialogs as `String`s, with numeric line edits
modelled as `Option ℚ` (`none` = empty text; the `QDoubleValidator`s
restrict the widgets to numeric-or-empty content).
-/

namespace BillBuddy

/-- A row of the `Items` table (schema in `init_db`, `src/main.py:34-52`).
`Name` and `BaseUnit` are `NOT NULL`; `Code` is `UNIQUE` and nullable;
`SecondaryUnit`, `ConversionRate` and the rate tiers are nullable.
`StockQty` and `AlertLevel` default to 0.  `RateA` is `NOT NULL` in the
schema, but the reading code guards it with `is not None`, so it is kept
as an `Option` here.  Empty numeric dialog texts are modelled as SQL
`NULL` (`none`). -/
structure Item where
  itemID : ℕ
  name : String
  code : Option String
  category : String
  hsn : String
  baseUnit : String
  secondaryUnit : Option String
  conversionRate : Option ℚ
  rateA : Option ℚ
  rateB : Option ℚ
  rateC : Option ℚ
  purchaseRate : Option ℚ
  stockQty : ℚ
  alertLevel : ℚ
  imagePath : String
  deriving Repr, DecidableEq

/-- A row of the `Customers` table (`src/main.py:54-61`). -/
structure Customer where
  name : String
  gstin : String
  area : String
  deriving Repr, DecidableEq

/-- A row of the `Purchases` table (`src/main.py:63-74`). -/
structure Purchase where
  date : String
  supplier : String
  itemID : ℕ
  unit : String
  qty : ℚ
  rate : Option ℚ
  deriving Repr, DecidableEq

/-- A row of the `StockAdjustments` table (`src/main.py:76-86`). -/
structure Adjustment where
  date : String
  itemID : ℕ
  qtyChange : ℚ
  unit : String
  reason : String
  deriving Repr, DecidableEq

/-- The persistent state: one list per table, in rowid order.
`lastBillNo` is the integer behind the `Settings` row with key
`'LastBillNo'` (`src/main.py:95`); the `BillNumbers` table is created but
never read or written, so it is omitted.  `itemSeq` models the
`AUTOINCREMENT` sequence for `Items.ItemID`. -/
structure DB where
  items : List Item
  customers : List Customer
  purchases : List Purchase
  adjustments : List Adjustment
  lastBillNo : ℤ
  itemSeq : ℕ
  deriving Repr, DecidableEq

/-- `SELECT ... FROM Items WHERE Name=?` followed by `fetchone()`:
the first row (in rowid order) whose `Name` equals `n`. -/
def findItem : List Item → String → Option Item
  | [], _ => none
  | r :: rs, n => if r.name = n then some r else findItem rs n

/-- The unit conversion of `update_stock` (`src/main.py:979-981`):
`if unit == sec and conv: qty_change = float(qty_change) / float(conv)`.
Python truthiness of `conv` (a nullable REAL) is `conv ≠ None ∧ conv ≠ 0`. -/
def convertedChange (unit : String) (sec : Option String) (conv : Option ℚ) (q : ℚ) : ℚ :=
  match conv with
  | some c => if sec = some unit ∧ c ≠ 0 then q / c else q
  | none => q

/-- `UPDATE Items SET StockQty=StockQty+? WHERE Name=?`: every row named
`n` gets its stock increased by `dq`. -/
def setStockRows (rows : List Item) (n : String) (dq : ℚ) : List Item :=
  rows.map (fun r => if r.name = n then { r with stockQty := r.stockQty + dq } else r)

/-- `update_stock` (`src/main.py:970-984`).  A missing item is a no-op
(`if not row: return`); otherwise the quantity change is converted using
the first matching row's `SecondaryUnit`/`ConversionRate` and added to the
`StockQty` of every row with that name. -/
def update_stock (db : DB) (item_name unit : String) (qty_change : ℚ) : DB :=
  match findItem db.items item_name with
  | none => db
  | some r =>
      let dq := convertedChange unit r.secondaryUnit r.conversionRate qty_change
      { db with items := setStockRows db.items item_name dq }

/-- `get_next_bill_no` (`src/main.py:107-116`): read the stored counter,
add one, persist the new value, return it. -/
def get_next_bill_no (db : DB) : ℤ × DB :=
  let next := db.lastBillNo + 1
  (next, { db with lastBillNo := next })

/-- One row of the billing table as read by `print_and_finish`
(`src/main.py:401-417`).  Only the fields that affect the database are
kept: the item and unit combo texts and the quantity line edit
(`none` = empty text).  The rate/total texts feed only the printed
receipt, which is modelled separately by `print_receipt`. -/
structure BillLine where
  item : String
  unit : String
  qty : Option ℚ
  deriving Repr, DecidableEq

/-- The gathering filter of `print_and_finish` (`src/main.py:416`):
`if item and qty and float(qty) > 0`. -/
def qualifies (l : BillLine) : Bool :=
  match l.qty with
  | some q => if l.item = "" then false else decide (0 < q)
  | none => false

/-- The stock-update loop of `print_and_finish` (`src/main.py:426-427`):
`for item, unit, qty, rate, total in items: update_stock(item, unit, -float(qty))`. -/
def applySale (db : DB) (ls : List BillLine) : DB :=
  ls.foldl (fun d l => update_stock d l.item l.unit (-(l.qty.getD 0))) db

/-- `print_and_finish` (`src/main.py:395-437`), database effects only:
the receipt is printed (no database effect, see `print_receipt`), the
stock of every gathered line is decremented, and the bill counter is
advanced by `get_next_bill_no` (`src/main.py:428`). -/
def print_and_finish (db : DB) (lines : List BillLine) : DB :=
  let db1 := applySale db (lines.filter qualifies)
  (get_next_bill_no db1).2

/-- `PurchasesTab.add_stock` (`src/main.py:848-868`).  Validation
(`if not item or not unit or not qty`) leaves everything unchanged;
otherwise the stock is updated, and a `Purchases` row is inserted with the
item's `ItemID`.  When the item does not exist, `c.fetchone()[0]` raises
`TypeError` before the insert is committed: that crash is modelled as
`none`. -/
def add_stock (db : DB) (date supplier item unit : String)
    (qty : Option ℚ) (rate : Option ℚ) : Option DB :=
  if item = "" ∨ unit = "" ∨ qty = none then some db
  else
    let q := qty.getD 0
    let db1 := update_stock db item unit q
    match findItem db1.items item with
    | none => none
    | some r => some { db1 with purchases :=
        db1.purchases ++ [⟨date, supplier, r.itemID, unit, q, rate⟩] }

/-- `StockAdjustDialog.accept` (`src/main.py:953-967`).  Empty `Qty` or
`Reason` texts are rejected with the database untouched (`qty = none`
models an empty quantity edit).  Otherwise the stock is updated and an
adjustment row is logged with the raw (unconverted) quantity; a missing
item crashes at `c.fetchone()[0]` (`none`).  The result pairs the
acceptance flag with the database. -/
def stock_adjust_accept (db : DB) (date item_name unit reason : String)
    (qty : Option ℚ) : Option (Bool × DB) :=
  if qty = none ∨ reason = "" then some (false, db)
  else
    let q := qty.getD 0
    let db1 := update_stock db item_name unit q
    match findItem db1.items item_name with
    | none => none
    | some r =>
        let row : Adjustment := ⟨date, r.itemID, q, unit, reason⟩
        some (true, { db1 with adjustments := db1.adjustments ++ [row] })

/-- The widget state of `ItemDialog` (`src/main.py:554-624`): every text
field of the form.  Numeric edits are `Option ℚ` (`none` = empty text). -/
structure ItemForm where
  name : String
  code : String
  category : String
  hsn : String
  baseUnit : String
  secondaryUnit : String
  conversion : Option ℚ
  rateA : Option ℚ
  rateB : Option ℚ
  rateC : Option ℚ
  purchaseRate : Option ℚ
  stockQty : Option ℚ
  alertLevel : Option ℚ
  imagePath : String
  deriving Repr, DecidableEq

/-- The `Items` row written by the `INSERT` branch of `ItemDialog.accept`
(`src/main.py:670-676`).  The dialog always writes text, so `Code` and
`SecondaryUnit` are stored as (possibly empty) strings, never SQL `NULL`.
An empty `StockQty`/`AlertLevel` text behaves as 0 downstream (the
columns default to 0), modelled by `getD 0`. -/
def rowOfForm (form : ItemForm) (id : ℕ) : Item :=
  { itemID := id, name := form.name, code := some form.code,
    category := form.category, hsn := form.hsn, baseUnit := form.baseUnit,
    secondaryUnit := some form.secondaryUnit, conversionRate := form.conversion,
    rateA := form.rateA, rateB := form.rateB, rateC := form.rateC,
    purchaseRate := form.purchaseRate, stockQty := form.stockQty.getD 0,
    alertLevel := form.alertLevel.getD 0, imagePath := form.imagePath }

/-- The `UPDATE` branch of `ItemDialog.accept` (`src/main.py:663-668`):
every column except the key `Name` (and the rowid `ItemID`) is
overwritten with the form's values. -/
def overwriteRow (form : ItemForm) (r : Item) : Item :=
  { r with
    code := some form.code, category := form.category, hsn := form.hsn,
    baseUnit := form.baseUnit, secondaryUnit := some form.secondaryUnit,
    conversionRate := form.conversion, rateA := form.rateA, rateB := form.rateB,
    rateC := form.rateC, purchaseRate := form.purchaseRate,
    stockQty := form.stockQty.getD 0, alertLevel := form.alertLevel.getD 0,
    imagePath := form.imagePath }

/-- `ItemDialog.accept` (`src/main.py:653-682`).  Empty `Name`,
`Base Unit` or `Rate A` is rejected before the database is opened.  If
the name already exists the row(s) are updated, otherwise a new row is
inserted.  `Items.Code` is `UNIQUE`: writing a code held by another row
raises `sqlite3.IntegrityError`, which is caught, so the dialog is not
accepted and the uncommitted transaction is rolled back by `conn.close()`
(likewise when several rows share the name and would receive the same
code).  The result pairs the acceptance flag with the database. -/
def item_dialog_accept (db : DB) (form : ItemForm) : Bool × DB :=
  if form.name = "" ∨ form.baseUnit = "" ∨ form.rateA = none then (false, db)
  else
    match findItem db.items form.name with
    | some _ =>
        if (∃ r ∈ db.items, r.name ≠ form.name ∧ r.code = some form.code) ∨
            2 ≤ (db.items.filter (fun r => r.name = form.name)).length then (false, db)
        else
          let rows := db.items.map (fun r => if r.name = form.name then overwriteRow form r else r)
          (true, { db with items := rows })
    | none =>
        if ∃ r ∈ db.items, r.code = some form.code then (false, db)
        else
          let rows := db.items ++ [rowOfForm form (db.itemSeq + 1)]
          (true, { db with items := rows, itemSeq := db.itemSeq + 1 })

/-- The widget state of `CustomerDialog` (`src/main.py:751-767`). -/
structure CustomerForm where
  name : String
  gstin : String
  area : String
  deriving Repr, DecidableEq

/-- `SELECT Name FROM Customers` membership test used by
`CustomerDialog.accept`. -/
def findCustomer : List Customer → String → Option Customer
  | [], _ => none
  | r :: rs, n => if r.name = n then some r else findCustomer rs n

/-- `CustomerDialog.accept` (`src/main.py:769-785`).  An empty name is
rejected before the database is opened; otherwise an existing customer is
updated in place and a new one is inserted (`Customers.Name` is `UNIQUE`,
and the insert only runs when the name is absent). -/
def customer_dialog_accept (db : DB) (form : CustomerForm) : Bool × DB :=
  if form.name = "" then (false, db)
  else
    match findCustomer db.customers form.name with
    | some _ =>
        let rows := db.customers.map (fun r =>
          if r.name = form.name then { r with gstin := form.gstin, area := form.area } else r)
        (true, { db with customers := rows })
    | none =>
        let rows := db.customers ++ [⟨form.name, form.gstin, form.area⟩]
        (true, { db with customers := rows })

/-- Python's `round(x, 2)`: round to 2 decimal places, ties to the even
hundredth (banker's rounding), on the exact rational value. -/
def pyRound2 (x : ℚ) : ℚ :=
  let y := 100 * x
  let f : ℤ := ⌊y⌋
  let r : ℚ := y - f
  let n : ℤ :=
    if r < 1/2 then f
    else if 1/2 < r then f + 1
    else if f % 2 = 0 then f else f + 1
  (n : ℚ) / 100

/-- The rate-combo contents built by `BillingTab.update_item_row`
(`src/main.py:309-332`), as the list of offered numeric rates in tier
order A, B, C.  `selected` is `unit_combo.currentText()`; an empty
selection falls back to the base unit (`selected_unit = ... or base`).
When the selected unit equals the (non-null) secondary unit and the
conversion rate is truthy and nonzero, each non-null tier is divided by
the conversion rate and rounded to 2 decimals; otherwise the non-null
tiers are offered unchanged. -/
def update_item_row_rates (it : Item) (selected : String) : List ℚ :=
  let selected_unit := if selected = "" then it.baseUnit else selected
  match it.conversionRate with
  | some c =>
      if it.secondaryUnit = some selected_unit ∧ c ≠ 0 then
        (it.rateA.map (fun a => pyRound2 (a / c))).toList ++
        (it.rateB.map (fun b => pyRound2 (b / c))).toList ++
        (it.rateC.map (fun d => pyRound2 (d / c))).toList
      else it.rateA.toList ++ it.rateB.toList ++ it.rateC.toList
  | none => it.rateA.toList ++ it.rateB.toList ++ it.rateC.toList

/-- The non-null rate tiers of an item in order A, B, C: the list the
billing row offers when no unit conversion applies. -/
def tierList (it : Item) : List ℚ :=
  it.rateA.toList ++ it.rateB.toList ++ it.rateC.toList

/-! ### Receipt formatting (`print_receipt`, `src/main.py:987-1015`)

Text is modelled as `List Char`, matching Python's code-point string
semantics (slicing, `ljust`, `rjust`, `center` all count code points). -/

/-- `s[:n].ljust(n)` — truncate to `n` code points, then pad on the right
with spaces to width `n` (also `s.ljust(n)` when `s` is known `≤ n`). -/
def padRight (n : ℕ) (s : List Char) : List Char :=
  s ++ List.replicate (n - s.length) ' '

/-- `s[:n].rjust(n)` — truncate to `n` code points, then pad on the left
with spaces to width `n` (also `s.rjust(n)` when `s` is known `≤ n`). -/
def padLeft (n : ℕ) (s : List Char) : List Char :=
  List.replicate (n - s.length) ' ' ++ s

/-- Python's `str.center(n)`: unchanged when already at least `n` wide,
otherwise padded on both sides; CPython puts the extra space as
`left = marg/2 + (marg & n & 1)`. -/
def pyCenter (n : ℕ) (s : List Char) : List Char :=
  if n ≤ s.length then s
  else
    let marg := n - s.length
    let left := marg / 2 + (marg % 2) * (n % 2)
    List.replicate left ' ' ++ s ++ List.replicate (marg - left) ' '

/-- The characters of a Lean string literal. -/
def strChars (s : String) : List Char := s.data

/-- One `(item, unit, qty, rate, total)` tuple of the `items` argument of
`print_receipt` — five strings read from the billing-table widgets. -/
structure ReceiptEntry where
  item : List Char
  unit : List Char
  qty : List Char
  rate : List Char
  total : List Char
  deriving Repr, DecidableEq

/-- A separator line: `"-" * width` with `width = 48` (`src/main.py:989`). -/
def dashLine : List Char := List.replicate 48 '-'

/-- An item line of the receipt (`src/main.py:1000-1008`): name
truncated/left-justified to 16, unit to 6, quantity right-justified to 6,
rate to 8, total to 8. -/
def itemLine (e : ReceiptEntry) : List Char :=
  padRight 16 (e.item.take 16) ++ padRight 6 (e.unit.take 6) ++
  padLeft 6 (e.qty.take 6) ++ padLeft 8 (e.rate.take 8) ++ padLeft 8 (e.total.take 8)

/-- `print_receipt` (`src/main.py:987-1015`): the full list of lines sent
to the (simulated) printer, for a 48-character thermal-printer width. -/
def print_receipt (bill_no customer date : List Char) (items : List ReceiptEntry)
    (totalqty grand : List Char) : List (List Char) :=
  [dashLine,
   pyCenter 48 (strChars "        SUNIL STORES"),
   dashLine,
   padRight 24 (strChars "Bill No: " ++ bill_no) ++
     padLeft 24 (strChars "Customer: " ++ customer),
   strChars "Date: " ++ date,
   dashLine,
   padRight 16 (strChars "Item") ++ padRight 6 (strChars "Unit") ++
     padRight 6 (strChars "Qty") ++ padRight 8 (strChars "Rate") ++
     padRight 8 (strChars "Total"),
   dashLine] ++
  items.map itemLine ++
  [dashLine,
   padRight 24 (strChars "Total Qty: " ++ totalqty) ++
     padLeft 24 (strChars "Grand: ₹" ++ grand),
   dashLine,
   pyCenter 48 (strChars "         THANK YOU FOR SHOPPING"),
   dashLine]

/-! ### Sequences of stock-changing transactions

The events the specification's stock invariant quantifies over: completed
bills (`BillingTab.print_and_finish`) and purchase entries
(`PurchasesTab.add_stock`). -/

/-- A stock-changing transaction: a completed bill with its billing-table
rows, or a submitted purchase entry with its form fields. -/
inductive StoreEvent where
  | sale (lines : List BillLine)
  | purchase (date supplier item unit : String) (qty : Option ℚ) (rate : Option ℚ)
  deriving Repr, DecidableEq

/-- Run one event against the database (`none` = the handler raised). -/
def applyEvent (db : DB) : StoreEvent → Option DB
  | .sale lines => some (print_and_finish db lines)
  | .purchase date supplier item unit qty rate =>
      add_stock db date supplier item unit qty rate

/-- Run a sequence of events left to right, stopping at a crash. -/
def runEvents : DB → List StoreEvent → Option DB
  | db, [] => some db
  | db, e :: es =>
      match applyEvent db e with
      | none => none
      | some db1 => runEvents db1 es

/-- The signed, unit-converted stock contribution of one billed line to
the item named `n`, given that item's secondary unit and conversion rate:
a qualifying billed line for `n` decreases its stock by the converted
quantity. -/
def saleLineDelta (n : String) (sec : Option String) (conv : Option ℚ) (l : BillLine) : ℚ :=
  if l.item = n then -(convertedChange l.unit sec conv (l.qty.getD 0)) else 0

/-- The signed, unit-converted stock contribution of one event to the
item named `n`: each qualifying billed line subtracts its converted
quantity, and a valid purchase entry adds its converted quantity. -/
def eventDelta (n : String) (sec : Option String) (conv : Option ℚ) : StoreEvent → ℚ
  | .sale lines => ((lines.filter qualifies).map (saleLineDelta n sec conv)).sum
  | .purchase _ _ item unit qty _ =>
      if item = "" ∨ unit = "" ∨ qty = none then 0
      else if item = n then convertedChange unit sec conv (qty.getD 0) else 0

/-! ### Lemmas about item lookup and stock updates -/

theorem findItem_name {rows : List Item} {n : String} {r : Item}
    (h : findItem rows n = some r) : r.name = n := by
  induction rows with
  | nil => simp [findItem] at h
  | cons x xs ih =>
    by_cases hx : x.name = n
    · simp only [findItem, if_pos hx, Option.some.injEq] at h
      rw [← h]; exact hx
    · simp only [findItem, if_neg hx] at h
      exact ih h

theorem findItem_eq_none {rows : List Item} {n : String}
    (h : findItem rows n = none) : ∀ it ∈ rows, it.name ≠ n := by
  induction rows with
  | nil => intro it hit; simp at hit
  | cons x xs ih =>
    intro it hit
    by_cases hx : x.name = n
    · simp [findItem, hx] at h
    · simp only [findItem, if_neg hx] at h
      rcases List.mem_cons.mp hit with rfl | hmem
      · exact hx
      · exact ih h it hmem

theorem findItem_split {rows : List Item} {n : String} {r : Item}
    (h : findItem rows n = some r) :
    ∃ pre post, rows = pre ++ r :: post ∧ ∀ it ∈ pre, it.name ≠ n := by
  induction rows with
  | nil => simp [findItem] at h
  | cons x xs ih =>
    by_cases hx : x.name = n
    · simp only [findItem, if_pos hx, Option.some.injEq] at h
      exact ⟨[], xs, by rw [h]; rfl, by simp⟩
    · simp only [findItem, if_neg hx] at h
      obtain ⟨pre, post, hsplit, hpre⟩ := ih h
      refine ⟨x :: pre, post, by rw [hsplit]; rfl, ?_⟩
      intro it hit
      rcases List.mem_cons.mp hit with rfl | hmem
      · exact hx
      · exact hpre it hmem

theorem map_keep_of_no_match {l : List Item} {n : String} {f : Item → Item}
    (h : ∀ it ∈ l, it.name ≠ n) :
    (l.map (fun r => if r.name = n then f r else r)) = l := by
  induction l with
  | nil => rfl
  | cons x xs ih =>
    simp only [List.map_cons, if_neg (h x (List.mem_cons_self x xs))]
    rw [ih (fun it hit => h it (List.mem_cons_of_mem x hit))]

theorem findItem_setStockRows (rows : List Item) (n : String) (dq : ℚ) (m : String) :
    findItem (setStockRows rows n dq) m =
      (findItem rows m).map
        (fun r => if r.name = n then { r with stockQty := r.stockQty + dq } else r) := by
  induction rows with
  | nil => rfl
  | cons x xs ih =>
    have hname :
        (if x.name = n then ({ x with stockQty := x.stockQty + dq } : Item) else x).name
          = x.name := by
      by_cases hxn : x.name = n <;> simp [hxn]
    simp only [setStockRows] at ih ⊢
    simp only [List.map_cons, findItem]
    by_cases hxm : x.name = m
    · rw [if_pos (hname.trans hxm), if_pos hxm]
      rfl
    · rw [if_neg (fun e => hxm (hname.symm.trans e)), if_neg hxm]
      exact ih

theorem update_stock_find {db : DB} {m : String} {r : Item} (n u : String) (q : ℚ)
    (h : findItem db.items m = some r) :
    findItem (update_stock db n u q).items m =
      some (if r.name = n then
        { r with stockQty :=
            r.stockQty + convertedChange u r.secondaryUnit r.conversionRate q }
      else r) := by
  have hrm : r.name = m := findItem_name h
  unfold update_stock
  cases hn : findItem db.items n with
  | none =>
    have hne : r.name ≠ n := by
      intro e
      exact findItem_eq_none hn r (by
        obtain ⟨pre, post, hsplit, _⟩ := findItem_split h
        rw [hsplit]; exact List.mem_append_right _ (List.mem_cons_self r post)) e
    simp [h, hne]
  | some r2 =>
    simp only [findItem_setStockRows, h, Option.map_some']
    by_cases hrn : r.name = n
    · have hr2 : r2 = r := by
        rw [← hrn] at hn
        rw [hrm] at hn
        rw [h] at hn
        injection hn with e
        exact e.symm
      rw [hr2]
    · simp [if_neg hrn]

@[simp] theorem update_stock_customers (db : DB) (n u : String) (q : ℚ) :
    (update_stock db n u q).customers = db.customers := by
  unfold update_stock; cases findItem db.items n <;> rfl

@[simp] theorem update_stock_purchases (db : DB) (n u : String) (q : ℚ) :
    (update_stock db n u q).purchases = db.purchases := by
  unfold update_stock; cases findItem db.items n <;> rfl

@[simp] theorem update_stock_adjustments (db : DB) (n u : String) (q : ℚ) :
    (update_stock db n u q).adjustments = db.adjustments := by
  unfold update_stock; cases findItem db.items n <;> rfl

@[simp] theorem update_stock_lastBillNo (db : DB) (n u : String) (q : ℚ) :
    (update_stock db n u q).lastBillNo = db.lastBillNo := by
  unfold update_stock; cases findItem db.items n <;> rfl

@[simp] theorem update_stock_itemSeq (db : DB) (n u : String) (q : ℚ) :
    (update_stock db n u q).itemSeq = db.itemSeq := by
  unfold update_stock; cases findItem db.items n <;> rfl

theorem convertedChange_neg (u : String) (s : Option String) (c : Option ℚ) (q : ℚ) :
    convertedChange u s c (-q) = -(convertedChange u s c q) := by
  unfold convertedChange
  cases c with
  | none => rfl
  | some c => by_cases h : s = some u ∧ c ≠ 0 <;> simp [h, neg_div]

theorem applySale_find {m : String} (ls : List BillLine) (db : DB) (r : Item)
    (h : findItem db.items m = some r) :
    findItem (applySale db ls).items m =
      some { r with stockQty :=
        r.stockQty + ((ls.map (saleLineDelta m r.secondaryUnit r.conversionRate)).sum) } := by
  induction ls generalizing db r with
  | nil =>
    simp only [applySale, List.foldl_nil, List.map_nil, List.sum_nil, add_zero]
    exact h
  | cons l ls ih =>
    simp only [applySale, List.foldl_cons] at ih ⊢
    have h1 := update_stock_find l.item l.unit (-(l.qty.getD 0)) h
    by_cases hlm : l.item = m
    · have hrl : r.name = l.item := (findItem_name h).trans hlm.symm
      rw [if_pos hrl] at h1
      have h2 := ih _ _ h1
      rw [h2]
      simp only [saleLineDelta, if_pos hlm, List.map_cons, List.sum_cons,
        convertedChange_neg]
      rw [Option.some.injEq]
      congr 1
      ring
    · have hrl : r.name ≠ l.item := fun e => hlm ((findItem_name h).symm.trans e ▸ rfl)
      rw [if_neg (fun e => hlm (((findItem_name h).symm.trans e).symm ▸ rfl))] at h1
      have h2 := ih _ _ h1
      rw [h2]
      simp [saleLineDelta, hlm]

@[simp] theorem applySale_customers (ls : List BillLine) (db : DB) :
    (applySale db ls).customers = db.customers := by
  induction ls generalizing db with
  | nil => rfl
  | cons l ls ih => simp [applySale, List.foldl_cons] at ih ⊢; rw [ih]; simp

@[simp] theorem applySale_purchases (ls : List BillLine) (db : DB) :
    (applySale db ls).purchases = db.purchases := by
  induction ls generalizing db with
  | nil => rfl
  | cons l ls ih => simp [applySale, List.foldl_cons] at ih ⊢; rw [ih]; simp

@[simp] theorem applySale_adjustments (ls : List BillLine) (db : DB) :
    (applySale db ls).adjustments = db.adjustments := by
  induction ls generalizing db with
  | nil => rfl
  | cons l ls ih => simp [applySale, List.foldl_cons] at ih ⊢; rw [ih]; simp

@[simp] theorem applySale_lastBillNo (ls : List BillLine) (db : DB) :
    (applySale db ls).lastBillNo = db.lastBillNo := by
  induction ls generalizing db with
  | nil => rfl
  | cons l ls ih => simp [applySale, List.foldl_cons] at ih ⊢; rw [ih]; simp

theorem print_and_finish_find {m : String} (db : DB) (lines : List BillLine) (r : Item)
    (h : findItem db.items m = some r) :
    findItem (print_and_finish db lines).items m =
      some { r with stockQty := r.stockQty +
        (((lines.filter qualifies).map
            (saleLineDelta m r.secondaryUnit r.conversionRate)).sum) } := by
  unfold print_and_finish get_next_bill_no
  exact applySale_find _ _ _ h

@[simp] theorem print_and_finish_purchases (db : DB) (lines : List BillLine) :
    (print_and_finish db lines).purchases = db.purchases := by
  unfold print_and_finish get_next_bill_no
  simp

@[simp] theorem print_and_finish_adjustments (db : DB) (lines : List BillLine) :
    (print_and_finish db lines).adjustments = db.adjustments := by
  unfold print_and_finish get_next_bill_no
  simp

@[simp] theorem print_and_finish_customers (db : DB) (lines : List BillLine) :
    (print_and_finish db lines).customers = db.customers := by
  unfold print_and_finish get_next_bill_no
  simp

theorem add_stock_valid {db : DB} {item : String} {r : Item} (date supplier : String)
    (unit : String) (q : ℚ) (rate : Option ℚ)
    (hi : item ≠ "") (hu : unit ≠ "")
    (h : findItem db.items item = some r) :
    add_stock db date supplier item unit (some q) rate =
      some { update_stock db item unit q with purchases :=
        db.purchases ++ [⟨date, supplier, r.itemID, unit, q, rate⟩] } := by
  have hvalid : ¬(item = "" ∨ unit = "" ∨ (some q : Option ℚ) = none) := by
    push_neg
    exact ⟨hi, hu, by simp⟩
  unfold add_stock
  rw [if_neg hvalid]
  simp only [Option.getD_some]
  have h1 := update_stock_find item unit q h
  rw [if_pos (findItem_name h)] at h1
  rw [h1]
  simp only [update_stock_purchases]

theorem runEvents_find {m : String} (es : List StoreEvent) (db db' : DB) (r : Item)
    (h : findItem db.items m = some r) (hrun : runEvents db es = some db') :
    findItem db'.items m =
      some { r with stockQty := r.stockQty +
        ((es.map (eventDelta m r.secondaryUnit r.conversionRate)).sum) } := by
  induction es generalizing db r with
  | nil =>
    simp only [runEvents, Option.some.injEq] at hrun
    subst hrun
    simp only [List.map_nil, List.sum_nil, add_zero]
    exact h
  | cons e es ih =>
    unfold runEvents at hrun
    cases happ : applyEvent db e with
    | none => rw [happ] at hrun; cases hrun
    | some db1 =>
      rw [happ] at hrun
      have h1 : findItem db1.items m =
          some { r with stockQty :=
            r.stockQty + eventDelta m r.secondaryUnit r.conversionRate e } := by
        cases e with
        | sale lines =>
          simp only [applyEvent, Option.some.injEq] at happ
          subst happ
          simpa [eventDelta] using print_and_finish_find db lines r h
        | purchase date supplier item unit qty rate =>
          simp only [applyEvent] at happ
          by_cases hv : item = "" ∨ unit = "" ∨ qty = none
          · unfold add_stock at happ
            rw [if_pos hv] at happ
            injection happ with e1
            subst e1
            simp only [eventDelta, if_pos hv, add_zero]
            exact h
          · unfold add_stock at happ
            rw [if_neg hv] at happ
            simp only [] at happ
            have h2 := update_stock_find item unit (qty.getD 0) h
            cases hfind2 : findItem (update_stock db item unit (qty.getD 0)).items item with
            | none => rw [hfind2] at happ; cases happ
            | some r2 =>
              rw [hfind2] at happ
              simp only [Option.some.injEq] at happ
              subst happ
              by_cases him : item = m
              · subst him
                have hrn : r.name = item := findItem_name h
                rw [if_pos hrn] at h2
                simpa [eventDelta, hv] using h2
              · have hrn : r.name ≠ item := fun e => him (((findItem_name h).symm.trans e).symm)
                rw [if_neg hrn] at h2
                simp only [eventDelta, if_neg hv, if_neg him, add_zero]
                exact h2
      have h3 := ih _ _ h1 hrun
      rw [h3]
      rw [Option.some.injEq]
      simp only [List.map_cons, List.sum_cons]
      congr 1
      ring

theorem findItem_append_no_match {pre : List Item} {n : String}
    (hpre : ∀ it ∈ pre, it.name ≠ n) (rest : List Item) :
    findItem (pre ++ rest) n = findItem rest n := by
  induction pre with
  | nil => rfl
  | cons x xs ih =>
    have hx : x.name ≠ n := hpre x (List.mem_cons_self x xs)
    simp only [List.cons_append, findItem, if_neg hx]
    exact ih (fun it hit => hpre it (List.mem_cons_of_mem x hit))

theorem filter_name_split {rows : List Item} {n : String} {r : Item}
    (h : rows.filter (fun it => it.name = n) = [r]) :
    ∃ pre post, rows = pre ++ r :: post ∧ (∀ it ∈ pre, it.name ≠ n) ∧
      (∀ it ∈ post, it.name ≠ n) ∧ r.name = n := by
  induction rows with
  | nil => simp at h
  | cons x xs ih =>
    by_cases hx : x.name = n
    · rw [List.filter_cons_of_pos (by simpa using hx)] at h
      rw [List.cons.injEq] at h
      obtain ⟨rfl, hnil⟩ := h
      have hxs : ∀ it ∈ xs, it.name ≠ n := by
        intro it hit
        have := List.filter_eq_nil_iff.mp hnil it hit
        simpa using this
      exact ⟨[], xs, rfl, by simp, hxs, hx⟩
    · rw [List.filter_cons_of_neg (by simpa using hx)] at h
      obtain ⟨pre, post, hsplit, hpre, hpost, hr⟩ := ih h
      refine ⟨x :: pre, post, by rw [hsplit]; rfl, ?_, hpost, hr⟩
      intro it hit
      rcases List.mem_cons.mp hit with rfl | hmem
      · exact hx
      · exact hpre it hmem

theorem setStockRows_split {pre post : List Item} {r : Item} {n : String} (dq : ℚ)
    (hpre : ∀ it ∈ pre, it.name ≠ n) (hpost : ∀ it ∈ post, it.name ≠ n)
    (hr : r.name = n) :
    setStockRows (pre ++ r :: post) n dq =
      pre ++ { r with stockQty := r.stockQty + dq } :: post := by
  unfold setStockRows
  rw [List.map_append, map_keep_of_no_match hpre, List.map_cons, if_pos hr,
    map_keep_of_no_match hpost]

/-! ### Fixtures used by the witnesses -/

/-- A sample item: sold by the Kg, with a secondary unit of `Bag`
holding 4 Kg, rates ₹10/₹6 and no C tier, 100 Kg in stock. -/
def sampleItem : Item := {
  itemID := 1, name := "Rice", code := some "R1", category := "Grain", hsn := "1006",
  baseUnit := "Kg", secondaryUnit := some "Bag", conversionRate := some 4,
  rateA := some 10, rateB := some 6, rateC := none, purchaseRate := some 8,
  stockQty := 100, alertLevel := 5, imagePath := "" }

/-- A sample database holding `sampleItem`, one customer, and the initial
bill counter. -/
def sampleDB : DB := ⟨[sampleItem], [⟨"Asha", "G1", "East"⟩], [], [], 1000, 1⟩

/-! ### The claims -/

/-- Claim C1: for every stock-changing event on an existing item with
quantity change `q` in unit `u`, `update_stock` changes the item's
`StockQty` by `q / ConversionRate` when `u` equals the item's
`SecondaryUnit` and `ConversionRate` is non-null and nonzero, and by `q`
unchanged otherwise (including when `ConversionRate` is null or zero) —
so in the zero/null cases no division by the conversion rate happens at
all. -/
theorem update_stock_unit_conversion (db : DB) (name unit : String) (q : ℚ) (r : Item)
    (hfind : findItem db.items name = some r) :
    ∃ r', findItem (update_stock db name unit q).items name = some r' ∧
      (∀ c, r.conversionRate = some c → c ≠ 0 → r.secondaryUnit = some unit →
        r'.stockQty = r.stockQty + q / c) ∧
      (r.conversionRate = none → r'.stockQty = r.stockQty + q) ∧
      (r.conversionRate = some 0 → r'.stockQty = r.stockQty + q) ∧
      (r.secondaryUnit ≠ some unit → r'.stockQty = r.stockQty + q) := by
  have h1 := update_stock_find name unit q hfind
  rw [if_pos (findItem_name hfind)] at h1
  refine ⟨_, h1, ?_, ?_, ?_, ?_⟩
  · intro c hc hc0 hsec
    simp [convertedChange, hc, hsec, hc0]
  · intro hc
    simp [convertedChange, hc]
  · intro hc
    simp [convertedChange, hc]
  · intro hsec
    cases hc : r.conversionRate with
    | none => simp [convertedChange, hc]
    | some c => simp [convertedChange, hc, hsec]

/-- Witness for C1 at a concrete input: selling in the secondary unit
`Bag` of `sampleItem` (conversion rate 4) changes the stock by `8 / 4`. -/
theorem update_stock_unit_conversion_witness :
    findItem sampleDB.items "Rice" = some sampleItem ∧
    ∃ r', findItem (update_stock sampleDB "Rice" "Bag" 8).items "Rice" = some r' ∧
      (∀ c, sampleItem.conversionRate = some c → c ≠ 0 →
        sampleItem.secondaryUnit = some "Bag" →
        r'.stockQty = sampleItem.stockQty + 8 / c) ∧
      (sampleItem.conversionRate = none → r'.stockQty = sampleItem.stockQty + 8) ∧
      (sampleItem.conversionRate = some 0 → r'.stockQty = sampleItem.stockQty + 8) ∧
      (sampleItem.secondaryUnit ≠ some "Bag" → r'.stockQty = sampleItem.stockQty + 8) :=
  ⟨rfl, update_stock_unit_conversion sampleDB "Rice" "Bag" 8 sampleItem rfl⟩

/-- Claim C2: `get_next_bill_no` returns the stored `LastBillNo` plus
one and persists exactly that value (changing nothing else), so two
successive calls return consecutive increasing integers. -/
theorem get_next_bill_no_sequential (db : DB) :
    (get_next_bill_no db).1 = db.lastBillNo + 1 ∧
    (get_next_bill_no db).2 = { db with lastBillNo := db.lastBillNo + 1 } ∧
    (get_next_bill_no (get_next_bill_no db).2).1 = (get_next_bill_no db).1 + 1 :=
  ⟨rfl, rfl, rfl⟩

/-- Claim C9: `update_stock` on an item name absent from `Items` is a
no-op: it returns without touching the database. -/
theorem update_stock_missing_item_noop (db : DB) (name unit : String) (q : ℚ)
    (h : findItem db.items name = none) :
    update_stock db name unit q = db := by
  unfold update_stock
  rw [h]

/-- Witness for C9 at a concrete input: no item is named `Ghee` in
`sampleDB`, and updating it changes nothing. -/
theorem update_stock_missing_item_noop_witness :
    findItem sampleDB.items "Ghee" = none ∧
    update_stock sampleDB "Ghee" "Kg" 5 = sampleDB :=
  ⟨rfl, update_stock_missing_item_noop sampleDB "Ghee" "Kg" 5 rfl⟩

/-- Claim C10: when exactly one `Items` row bears the given name,
`update_stock` modifies only that row's `StockQty`: every other column
of that row, every other `Items` row (kept in place), and every other
table are unchanged. -/
theorem update_stock_frame (db : DB) (n u : String) (q : ℚ) (r : Item)
    (huniq : db.items.filter (fun it => it.name = n) = [r]) :
    (update_stock db n u q).customers = db.customers ∧
    (update_stock db n u q).purchases = db.purchases ∧
    (update_stock db n u q).adjustments = db.adjustments ∧
    (update_stock db n u q).lastBillNo = db.lastBillNo ∧
    (update_stock db n u q).itemSeq = db.itemSeq ∧
    ∃ pre post,
      db.items = pre ++ r :: post ∧
      (∀ it ∈ pre, it.name ≠ n) ∧ (∀ it ∈ post, it.name ≠ n) ∧
      (update_stock db n u q).items =
        pre ++ { r with stockQty :=
          r.stockQty + convertedChange u r.secondaryUnit r.conversionRate q } :: post := by
  obtain ⟨pre, post, hsplit, hpre, hpost, hr⟩ := filter_name_split huniq
  have hfind : findItem db.items n = some r := by
    rw [hsplit, findItem_append_no_match hpre]
    simp [findItem, hr]
  refine ⟨by simp, by simp, by simp, by simp, by simp, pre, post, hsplit, hpre, hpost, ?_⟩
  unfold update_stock
  rw [hfind]
  simp only []
  rw [hsplit]
  exact setStockRows_split _ hpre hpost hr

/-- Witness for C10 at a concrete input: the single `Rice` row of
`sampleDB` is the only thing `update_stock` touches, and only its
stock. -/
theorem update_stock_frame_witness :
    sampleDB.items.filter (fun it => it.name = "Rice") = [sampleItem] ∧
    ((update_stock sampleDB "Rice" "Kg" 5).customers = sampleDB.customers ∧
     (update_stock sampleDB "Rice" "Kg" 5).purchases = sampleDB.purchases ∧
     (update_stock sampleDB "Rice" "Kg" 5).adjustments = sampleDB.adjustments ∧
     (update_stock sampleDB "Rice" "Kg" 5).lastBillNo = sampleDB.lastBillNo ∧
     (update_stock sampleDB "Rice" "Kg" 5).itemSeq = sampleDB.itemSeq ∧
     ∃ pre post,
       sampleDB.items = pre ++ sampleItem :: post ∧
       (∀ it ∈ pre, it.name ≠ "Rice") ∧ (∀ it ∈ post, it.name ≠ "Rice") ∧
       (update_stock sampleDB "Rice" "Kg" 5).items =
         pre ++ { sampleItem with
           stockQty := sampleItem.stockQty + convertedChange "Kg"
             sampleItem.secondaryUnit sampleItem.conversionRate 5 } :: post) :=
  ⟨rfl, update_stock_frame sampleDB "Rice" "Kg" 5 sampleItem rfl⟩

/-- Claim C3: the stock counter stays in sync with transactions.
(1) Completing a bill changes each item's stock by the signed, converted
sum of its gathered lines (each qualifying line for the item subtracts
its quantity converted to base units, `saleLineDelta`);
(2) a purchase entry increases the purchased item's stock by the
purchased quantity converted to base units; and
(3) after any sequence of bill-completion and purchase events that runs
without error, an item's `StockQty` equals its opening stock plus the
signed, unit-converted sum of its transactions. -/
theorem stock_in_sync_with_transactions (db : DB) (m : String) (r : Item)
    (hfind : findItem db.items m = some r) :
    (∀ lines, findItem (print_and_finish db lines).items m =
      some { r with stockQty := r.stockQty +
        (((lines.filter qualifies).map
            (saleLineDelta m r.secondaryUnit r.conversionRate)).sum) }) ∧
    (∀ date supplier unit q rate, m ≠ "" → unit ≠ "" →
      ∃ db2, add_stock db date supplier m unit (some q) rate = some db2 ∧
        findItem db2.items m = some { r with stockQty := r.stockQty + convertedChange unit r.secondaryUnit r.conversionRate q }) ∧
    (∀ es db', runEvents db es = some db' →
      findItem db'.items m = some { r with stockQty := r.stockQty + ((es.map (eventDelta m r.secondaryUnit r.conversionRate)).sum) }) := by
  refine ⟨fun lines => print_and_finish_find db lines r hfind, ?_,
    fun es db' hrun => runEvents_find es db db' r hfind hrun⟩
  intro date supplier unit q rate hm hu
  refine ⟨_, add_stock_valid date supplier unit q rate hm hu hfind, ?_⟩
  have h1 := update_stock_find m unit q hfind
  rw [if_pos (findItem_name hfind)] at h1
  exact h1

/-- The sequence of events used by the C3 witness: buy 8 Kg of `Rice`,
then sell 3 Kg on a bill. -/
def sampleEvents : List StoreEvent :=
  [.purchase "2024-06-01" "S" "Rice" "Kg" (some 8) (some 7),
   .sale [⟨"Rice", "Kg", some 3⟩]]

/-- The database produced by running `sampleEvents` on `sampleDB`:
stock 100 + 8 - 3 = 105, the purchase logged, the bill counter bumped. -/
def sampleRun : DB := { sampleDB with
  items := [{ sampleItem with stockQty := 105 }],
  purchases := [⟨"2024-06-01", "S", 1, "Kg", 8, some 7⟩],
  lastBillNo := 1001 }

/-- Witness for C3 at a concrete input: after buying 8 Kg and billing
3 Kg, the `Rice` stock is its opening 100 plus the signed converted sum
`8 - 3`. -/
theorem stock_in_sync_with_transactions_witness :
    findItem sampleDB.items "Rice" = some sampleItem ∧
    runEvents sampleDB sampleEvents = some sampleRun ∧
    findItem sampleRun.items "Rice" =
      some { sampleItem with stockQty := sampleItem.stockQty + ((sampleEvents.map (eventDelta "Rice" sampleItem.secondaryUnit sampleItem.conversionRate)).sum) } ∧
    sampleItem.stockQty + ((sampleEvents.map (eventDelta "Rice"
      sampleItem.secondaryUnit sampleItem.conversionRate)).sum) = 105 := by
  have hrun : runEvents sampleDB sampleEvents = some sampleRun := by
    simp +decide [runEvents, applyEvent, add_stock, update_stock, findItem, setStockRows,
      convertedChange, print_and_finish, applySale, get_next_bill_no, qualifies,
      sampleDB, sampleItem, sampleEvents, sampleRun]
    norm_num
  refine ⟨rfl, hrun,
    (stock_in_sync_with_transactions sampleDB "Rice" sampleItem rfl).2.2
      sampleEvents sampleRun hrun, ?_⟩
  simp +decide [sampleEvents, sampleItem, eventDelta, qualifies, saleLineDelta, convertedChange]
  norm_num

/-- Counterexample to C4 as stated: completing a bill persists no record
of the sale.  At this concrete input the entire post-state is the
pre-state with only `Rice`'s stock decremented and the bill counter
advanced — `Purchases`, `StockAdjustments`, `Customers` and every other
column are untouched, so no table holds any record of the completed
sale (its items, rates, customer, or date); the receipt is only printed. -/
theorem completing_sale_persists_no_record_cex :
    print_and_finish sampleDB [⟨"Rice", "Kg", some 2⟩] =
      { sampleDB with
        items := [{ sampleItem with stockQty := 98 }],
        lastBillNo := 1001 } := by
  simp +decide [print_and_finish, applySale, get_next_bill_no, qualifies, update_stock,
    findItem, setStockRows, convertedChange, sampleDB, sampleItem]
  norm_num

/-- Claim C4 as amended: completing a sale persists no sale record — it
only updates stock and advances the bill counter (the receipt is printed,
not stored) — while submitting a purchase entry with non-empty item,
unit and quantity for an existing item appends one `Purchases` row
holding the given date, supplier, the item's `ItemID`, unit, quantity
and rate. -/
theorem sale_prints_only_purchase_persists (db : DB) (lines : List BillLine)
    (date supplier item unit : String) (q : ℚ) (rate : Option ℚ) (r : Item)
    (hi : item ≠ "") (hu : unit ≠ "") (hfind : findItem db.items item = some r) :
    ((print_and_finish db lines).purchases = db.purchases ∧
     (print_and_finish db lines).adjustments = db.adjustments ∧
     (print_and_finish db lines).customers = db.customers) ∧
    ∃ db2, add_stock db date supplier item unit (some q) rate = some db2 ∧
      db2.purchases = db.purchases ++ [⟨date, supplier, r.itemID, unit, q, rate⟩] ∧
      db2.adjustments = db.adjustments ∧ db2.customers = db.customers := by
  refine ⟨⟨by simp, by simp, by simp⟩,
    _, add_stock_valid date supplier unit q rate hi hu hfind, rfl, by simp, by simp⟩

/-- Witness for the amended C4 at a concrete input: a bill leaves
`Purchases`/`StockAdjustments`/`Customers` unchanged, and a purchase
entry of 8 Kg of `Rice` at ₹7 appends exactly its row. -/
theorem sale_prints_only_purchase_persists_witness :
    ("Rice" : String) ≠ "" ∧ ("Kg" : String) ≠ "" ∧
    findItem sampleDB.items "Rice" = some sampleItem ∧
    (((print_and_finish sampleDB [⟨"Rice", "Kg", some 2⟩]).purchases = sampleDB.purchases ∧
      (print_and_finish sampleDB [⟨"Rice", "Kg", some 2⟩]).adjustments = sampleDB.adjustments ∧
      (print_and_finish sampleDB [⟨"Rice", "Kg", some 2⟩]).customers = sampleDB.customers) ∧
     ∃ db2, add_stock sampleDB "2024-06-01" "S" "Rice" "Kg" (some 8) (some 7) = some db2 ∧
       db2.purchases = sampleDB.purchases ++
         [⟨"2024-06-01", "S", sampleItem.itemID, "Kg", 8, some 7⟩] ∧
       db2.adjustments = sampleDB.adjustments ∧ db2.customers = sampleDB.customers) :=
  ⟨by decide, by decide, rfl,
    sale_prints_only_purchase_persists sampleDB [⟨"Rice", "Kg", some 2⟩]
      "2024-06-01" "S" "Rice" "Kg" 8 (some 7) sampleItem
      (by decide) (by decide) rfl⟩

/-- A degenerate but constructible item whose base unit equals its
secondary unit (the item dialog lets both combos hold the same unit):
sold in `Kg`, with "secondary" unit also `Kg` at conversion rate 2. -/
def degenerateItem : Item := {
  itemID := 2, name := "Salt", code := some "S1", category := "", hsn := "",
  baseUnit := "Kg", secondaryUnit := some "Kg", conversionRate := some 2,
  rateA := some 10, rateB := none, rateC := none, purchaseRate := none,
  stockQty := 0, alertLevel := 0, imagePath := "" }

/-- Counterexample to C5 as stated.  C5 claims that for an item with a
secondary unit and a nonzero conversion rate, selecting the base unit
offers the base-unit rates unchanged.  For `degenerateItem` the base
unit `Kg` equals the secondary unit, so selecting the base unit takes
the division branch of `update_item_row`: the offered list is `[5]`
(10 / 2, rounded), not the unchanged `[10]` the claim requires. -/
theorem base_unit_rates_unchanged_cex :
    degenerateItem.baseUnit = "Kg" ∧
    degenerateItem.secondaryUnit = some "Kg" ∧
    degenerateItem.conversionRate = some 2 ∧
    tierList degenerateItem = [10] ∧
    update_item_row_rates degenerateItem "Kg" = [5] ∧
    update_item_row_rates degenerateItem "Kg" ≠ tierList degenerateItem := by
  refine ⟨rfl, rfl, rfl, rfl, ?_, ?_⟩
  · simp +decide [update_item_row_rates, degenerateItem, pyRound2]
    norm_num
  · simp +decide [update_item_row_rates, tierList, degenerateItem, pyRound2]
    norm_num

/-- Claim C5 as amended: for an item with a (nonempty) secondary unit
and a non-null, nonzero conversion rate, selecting the secondary unit
offers each non-null rate tier divided by the conversion rate and
rounded to 2 decimals (null tiers omitted), and selecting any unit
different from the secondary unit — in particular the base unit whenever
it differs from the secondary unit — offers the non-null base-unit rate
tiers unchanged (null tiers omitted). -/
theorem multi_tier_rates_under_conversion (it : Item) (s : String) (c : ℚ)
    (hs : it.secondaryUnit = some s) (hs0 : s ≠ "")
    (hc : it.conversionRate = some c) (hc0 : c ≠ 0) :
    update_item_row_rates it s = (tierList it).map (fun r => pyRound2 (r / c)) ∧
    (∀ u, u ≠ "" → u ≠ s → update_item_row_rates it u = tierList it) ∧
    (it.baseUnit ≠ s → update_item_row_rates it it.baseUnit = tierList it) := by
  refine ⟨?_, ?_, ?_⟩
  · cases ha : it.rateA <;> cases hb : it.rateB <;> cases hd : it.rateC <;>
      simp [update_item_row_rates, tierList, hc, hs, hs0, hc0, ha, hb, hd]
  · intro u hu0 hus
    have hne : it.secondaryUnit ≠ some u := by
      rw [hs]
      intro e
      injection e with e'
      exact hus e'.symm
    simp [update_item_row_rates, tierList, hc, hu0, hne]
  · intro hbs
    have hne : it.secondaryUnit ≠ some it.baseUnit := by
      rw [hs]
      intro e
      injection e with e'
      exact hbs e'.symm
    simp [update_item_row_rates, tierList, hc, hne, ite_self]

/-- Witness for the amended C5 at a concrete input: for `sampleItem`
(base `Kg`, secondary `Bag`, conversion 4, tiers ₹10/₹6/null), selecting
`Bag` offers `[2.5, 1.5]` and selecting the base unit `Kg` offers
`[10, 6]` unchanged, the null C tier omitted from both. -/
theorem multi_tier_rates_under_conversion_witness :
    sampleItem.secondaryUnit = some "Bag" ∧ ("Bag" : String) ≠ "" ∧
    sampleItem.conversionRate = some 4 ∧ (4 : ℚ) ≠ 0 ∧
    update_item_row_rates sampleItem "Bag" = [5/2, 3/2] ∧
    update_item_row_rates sampleItem "Kg" = [10, 6] := by
  have h := multi_tier_rates_under_conversion sampleItem "Bag" 4 rfl (by decide) rfl
    (by norm_num)
  refine ⟨rfl, by decide, rfl, by norm_num, ?_, ?_⟩
  · rw [h.1]
    norm_num [tierList, sampleItem, pyRound2]
  · have hbase := h.2.2 (by decide)
    rw [show sampleItem.baseUnit = "Kg" from rfl] at hbase
    rw [hbase]
    norm_num [tierList, sampleItem]

theorem filter_eq_single_of_findItem {rows : List Item} {n : String} {r : Item}
    (hfind : findItem rows n = some r)
    (huniq : (rows.filter (fun it => it.name = n)).length ≤ 1) :
    rows.filter (fun it => it.name = n) = [r] := by
  obtain ⟨pre, post, rfl, hpre⟩ := findItem_split hfind
  have hr : r.name = n := findItem_name hfind
  have hprenil : pre.filter (fun it => it.name = n) = [] :=
    List.filter_eq_nil_iff.mpr (by intro a ha; simpa using hpre a ha)
  rw [List.filter_append, hprenil, List.nil_append,
    List.filter_cons_of_pos (by simpa using hr)] at huniq ⊢
  have hpostnil : post.filter (fun it => it.name = n) = [] := by
    cases hfp : post.filter (fun it => it.name = n) with
    | nil => rfl
    | cons y ys => rw [hfp] at huniq; simp at huniq
  rw [hpostnil]

/-- Claim C6: after a successful save of the item dialog, the `Items`
row with the submitted name holds exactly the submitted field values; an
update overwrites every non-key column of the existing row (keeping its
`ItemID` and adding no second row), and an insert adds exactly one row.
The hypothesis that at most one existing row bears the name is the
app-maintained invariant (the dialog never inserts a duplicate name). -/
theorem item_dialog_save_matches_last_write (db : DB) (form : ItemForm) (db' : DB)
    (huniq : (db.items.filter (fun it => it.name = form.name)).length ≤ 1)
    (hacc : item_dialog_accept db form = (true, db')) :
    ∃ r', db'.items.filter (fun it => it.name = form.name) = [r'] ∧
      r'.name = form.name ∧ r'.code = some form.code ∧ r'.category = form.category ∧
      r'.hsn = form.hsn ∧ r'.baseUnit = form.baseUnit ∧
      r'.secondaryUnit = some form.secondaryUnit ∧ r'.conversionRate = form.conversion ∧
      r'.rateA = form.rateA ∧ r'.rateB = form.rateB ∧ r'.rateC = form.rateC ∧
      r'.purchaseRate = form.purchaseRate ∧ r'.stockQty = form.stockQty.getD 0 ∧
      r'.alertLevel = form.alertLevel.getD 0 ∧ r'.imagePath = form.imagePath ∧
      (∀ r0, findItem db.items form.name = some r0 →
        db'.items.length = db.items.length ∧ r'.itemID = r0.itemID) ∧
      (findItem db.items form.name = none →
        db'.items.length = db.items.length + 1) := by
  unfold item_dialog_accept at hacc
  by_cases hval : form.name = "" ∨ form.baseUnit = "" ∨ form.rateA = none
  · rw [if_pos hval] at hacc
    cases hacc
  · rw [if_neg hval] at hacc
    cases hfind : findItem db.items form.name with
    | some r0 =>
      rw [hfind] at hacc
      simp only [] at hacc
      by_cases hconf : (∃ r ∈ db.items, r.name ≠ form.name ∧ r.code = some form.code) ∨
          2 ≤ (db.items.filter (fun r => r.name = form.name)).length
      · rw [if_pos hconf] at hacc
        cases hacc
      · rw [if_neg hconf] at hacc
        rw [Prod.mk.injEq] at hacc
        obtain ⟨-, hdb⟩ := hacc
        subst hdb
        have hsingle := filter_eq_single_of_findItem hfind huniq
        obtain ⟨pre, post, hsplit, hpre, hpost, hr0⟩ := filter_name_split hsingle
        have hmap : db.items.map
            (fun r => if r.name = form.name then overwriteRow form r else r) =
            pre ++ overwriteRow form r0 :: post := by
          rw [hsplit, List.map_append, map_keep_of_no_match hpre, List.map_cons,
            if_pos hr0, map_keep_of_no_match hpost]
        refine ⟨overwriteRow form r0, ?_, ?_, rfl, rfl, rfl, rfl, rfl, rfl, rfl, rfl,
          rfl, rfl, rfl, rfl, rfl, ?_, ?_⟩
        · show (db.items.map _).filter _ = _
          rw [hmap, List.filter_append,
            List.filter_eq_nil_iff.mpr (by intro a ha; simpa using hpre a ha),
            List.nil_append,
            List.filter_cons_of_pos (by simpa [overwriteRow] using hr0),
            List.filter_eq_nil_iff.mpr (by intro a ha; simpa using hpost a ha)]
        · show (overwriteRow form r0).name = form.name
          simpa [overwriteRow] using hr0
        · intro r1 hr1
          injection hr1 with e
          subst e
          exact ⟨by simp, rfl⟩
        · intro hnone
          cases hnone
    | none =>
      rw [hfind] at hacc
      simp only [] at hacc
      by_cases hcode : ∃ r ∈ db.items, r.code = some form.code
      · rw [if_pos hcode] at hacc
        cases hacc
      · rw [if_neg hcode] at hacc
        rw [Prod.mk.injEq] at hacc
        obtain ⟨-, hdb⟩ := hacc
        subst hdb
        have hnil : db.items.filter (fun it => it.name = form.name) = [] :=
          List.filter_eq_nil_iff.mpr
            (by intro a ha; simpa using findItem_eq_none hfind a ha)
        refine ⟨rowOfForm form (db.itemSeq + 1), ?_, rfl, rfl, rfl, rfl, rfl, rfl, rfl,
          rfl, rfl, rfl, rfl, rfl, rfl, rfl, ?_, ?_⟩
        · show (db.items ++ [rowOfForm form (db.itemSeq + 1)]).filter _ = _
          rw [List.filter_append, hnil, List.nil_append]
          simp [rowOfForm]
        · intro r1 hr1
          cases hr1
        · intro _
          simp

/-- The form submitted by the C6 witness: an edit of `Rice` changing its
category, rates and stock. -/
def sampleForm : ItemForm := {
  name := "Rice", code := "R7", category := "Staple", hsn := "1006",
  baseUnit := "Kg", secondaryUnit := "Bag", conversion := some 5,
  rateA := some 11, rateB := none, rateC := some 9, purchaseRate := some 8,
  stockQty := some 42, alertLevel := none, imagePath := "img.png" }

/-- Witness for C6 at a concrete input: saving `sampleForm` over
`sampleDB` succeeds, and the single `Rice` row afterwards holds exactly
the submitted values, with the original `ItemID` and no second row. -/
theorem item_dialog_save_matches_last_write_witness :
    (sampleDB.items.filter (fun it => it.name = sampleForm.name)).length ≤ 1 ∧
    item_dialog_accept sampleDB sampleForm =
      (true, { sampleDB with items := [{ sampleItem with
        code := some "R7", category := "Staple", hsn := "1006", baseUnit := "Kg",
        secondaryUnit := some "Bag", conversionRate := some 5, rateA := some 11,
        rateB := none, rateC := some 9, purchaseRate := some 8, stockQty := 42,
        alertLevel := 0, imagePath := "img.png" }] }) ∧
    ∃ r', (item_dialog_accept sampleDB sampleForm).2.items.filter
        (fun it => it.name = sampleForm.name) = [r'] ∧
      r'.name = sampleForm.name ∧ r'.code = some sampleForm.code ∧
      r'.category = sampleForm.category ∧ r'.hsn = sampleForm.hsn ∧
      r'.baseUnit = sampleForm.baseUnit ∧
      r'.secondaryUnit = some sampleForm.secondaryUnit ∧
      r'.conversionRate = sampleForm.conversion ∧ r'.rateA = sampleForm.rateA ∧
      r'.rateB = sampleForm.rateB ∧ r'.rateC = sampleForm.rateC ∧
      r'.purchaseRate = sampleForm.purchaseRate ∧
      r'.stockQty = sampleForm.stockQty.getD 0 ∧
      r'.alertLevel = sampleForm.alertLevel.getD 0 ∧
      r'.imagePath = sampleForm.imagePath ∧
      (∀ r0, findItem sampleDB.items sampleForm.name = some r0 →
        (item_dialog_accept sampleDB sampleForm).2.items.length =
          sampleDB.items.length ∧ r'.itemID = r0.itemID) ∧
      (findItem sampleDB.items sampleForm.name = none →
        (item_dialog_accept sampleDB sampleForm).2.items.length =
          sampleDB.items.length + 1) := by
  have hacc : item_dialog_accept sampleDB sampleForm =
      (true, { sampleDB with items := [{ sampleItem with
        code := some "R7", category := "Staple", hsn := "1006", baseUnit := "Kg",
        secondaryUnit := some "Bag", conversionRate := some 5, rateA := some 11,
        rateB := none, rateC := some 9, purchaseRate := some 8, stockQty := 42,
        alertLevel := 0, imagePath := "img.png" }] }) := by
    simp +decide [item_dialog_accept, findItem, overwriteRow, sampleDB, sampleItem,
      sampleForm]
  refine ⟨by decide, hacc, ?_⟩
  have h := item_dialog_save_matches_last_write sampleDB sampleForm _ (by decide) hacc
  simpa [hacc] using h

/-- Claim C7: required-field validation is atomic.  An empty `Name`,
`Base Unit` or `Rate A` in the item dialog, an empty `Name` in the
customer dialog, and an empty `Qty` or `Reason` in the stock-adjustment
dialog each make the dialog's `accept` reject the submission: the dialog
is not accepted and the database is left completely unchanged (each
check runs before any statement touches the database). -/
theorem required_field_validation_atomic (db : DB) (form : ItemForm)
    (cform : CustomerForm) (date item_name unit reason : String) (q : Option ℚ) :
    (form.name = "" ∨ form.baseUnit = "" ∨ form.rateA = none →
      item_dialog_accept db form = (false, db)) ∧
    (cform.name = "" → customer_dialog_accept db cform = (false, db)) ∧
    (q = none ∨ reason = "" →
      stock_adjust_accept db date item_name unit reason q = some (false, db)) := by
  refine ⟨fun h => ?_, fun h => ?_, fun h => ?_⟩
  · unfold item_dialog_accept
    rw [if_pos h]
  · unfold customer_dialog_accept
    rw [if_pos h]
  · unfold stock_adjust_accept
    rw [if_pos h]

/-- An item form with the required `Name` left empty. -/
def blankNameItemForm : ItemForm := {
  name := "", code := "X", category := "", hsn := "", baseUnit := "Kg",
  secondaryUnit := "", conversion := none, rateA := some 10, rateB := none,
  rateC := none, purchaseRate := none, stockQty := none, alertLevel := none,
  imagePath := "" }

/-- A customer form with the required `Name` left empty. -/
def blankNameCustomerForm : CustomerForm := ⟨"", "G", "A"⟩

/-- Witness for C7 at concrete inputs: submitting a blank-name item
form, a blank-name customer form, and a stock adjustment with an empty
quantity all leave `sampleDB` untouched and are not accepted. -/
theorem required_field_validation_atomic_witness :
    (blankNameItemForm.name = "" ∨ blankNameItemForm.baseUnit = "" ∨
      blankNameItemForm.rateA = none) ∧
    item_dialog_accept sampleDB blankNameItemForm = (false, sampleDB) ∧
    blankNameCustomerForm.name = "" ∧
    customer_dialog_accept sampleDB blankNameCustomerForm = (false, sampleDB) ∧
    ((none : Option ℚ) = none ∨ ("damaged" : String) = "") ∧
    stock_adjust_accept sampleDB "2024-06-01" "Rice" "Kg" "damaged" none =
      some (false, sampleDB) := by
  have h := required_field_validation_atomic sampleDB blankNameItemForm
    blankNameCustomerForm "2024-06-01" "Rice" "Kg" "damaged" none
  exact ⟨Or.inl rfl, h.1 (Or.inl rfl), rfl, h.2.1 rfl, Or.inl rfl, h.2.2 (Or.inl rfl)⟩

theorem length_padRight_take (n : ℕ) (s : List Char) :
    (padRight n (s.take n)).length = n := by
  simp [padRight]

theorem length_padLeft_take (n : ℕ) (s : List Char) :
    (padLeft n (s.take n)).length = n := by
  simp [padLeft]

/-- Claim C8: receipt formatting is fixed-width for a 48-character line.
For every input, the separator lines of `print_receipt` are exactly 48
dashes, and every item line — name truncated/padded to 16 characters,
unit to 6, quantity to 6, rate to 8, total to 8 — is exactly 44
characters, regardless of the field lengths. -/
theorem receipt_fixed_width (b cu d : List Char) (items : List ReceiptEntry)
    (tq g : List Char) :
    (dashLine.length = 48 ∧ ∀ ch ∈ dashLine, ch = '-') ∧
    dashLine ∈ print_receipt b cu d items tq g ∧
    ∀ e ∈ items, (itemLine e).length = 44 ∧
      itemLine e ∈ print_receipt b cu d items tq g := by
  refine ⟨⟨by simp [dashLine], fun ch hch => List.eq_of_mem_replicate hch⟩, ?_, ?_⟩
  · simp [print_receipt]
  · intro e he
    constructor
    · simp [itemLine, List.length_append, length_padRight_take, length_padLeft_take]
    · simp only [print_receipt, List.mem_append, List.mem_map]
      exact Or.inl (Or.inr ⟨e, he, rfl⟩)

/-- The receipt entry used by the C8 witness: an over-long item name and
short numeric fields. -/
def sampleEntry : ReceiptEntry :=
  ⟨strChars "A very long item name indeed", strChars "Kg",
   strChars "2", strChars "30.0", strChars "60.0"⟩

/-- Witness for C8 at a concrete input: with a 28-character item name
the item line still measures exactly 44 characters, and the separator
lines are 48 dashes. -/
theorem receipt_fixed_width_witness :
    (dashLine.length = 48 ∧ ∀ ch ∈ dashLine, ch = '-') ∧
    dashLine ∈ print_receipt (strChars "1001") (strChars "Asha")
      (strChars "01-06-2024 10:00 AM") [sampleEntry] (strChars "2") (strChars "60.0") ∧
    (itemLine sampleEntry).length = 44 ∧
    itemLine sampleEntry ∈ print_receipt (strChars "1001") (strChars "Asha")
      (strChars "01-06-2024 10:00 AM") [sampleEntry] (strChars "2") (strChars "60.0") := by
  have h := receipt_fixed_width (strChars "1001") (strChars "Asha")
    (strChars "01-06-2024 10:00 AM") [sampleEntry] (strChars "2") (strChars "60.0")
  exact ⟨h.1, h.2.1, h.2.2 sampleEntry (by simp)⟩

end BillBuddy
